import Mathlib

/-!
Shallow embedding of `store/store.go` from docker-credential-gcr: a
file-backed credential store holding GCR OAuth2 tokens ("primary auth")
and third-party Docker credentials keyed by server URL.

Modelling conventions:
* Go's `map[string]credentials.Credentials` is modelled as an association
  list kept sorted by key with unique keys (`CredMap`).  Go maps are
  unordered, so a canonical sorted representation is faithful; it matches
  `encoding/json`, which writes map keys in sorted order.
* `time.Time` values are modelled as `Nat` instants.  `encoding/json`
  serialises a `time.Time` as an RFC3339 string, an injective encoding of
  valid instants; the constructor `Json.jtime` stands for such a string,
  while `Json.str` stands for any string that is not a valid RFC3339
  timestamp (so decoding a `Json.str` into a time field fails, exactly as
  `time.Time.UnmarshalJSON` fails on a malformed timestamp).
* JSON bytes are modelled one level up, as a tree (`Json`).  A file whose
  bytes are not syntactically valid JSON is `FileContents.malformed`;
  a file parsing to tree `j` is `FileContents.json j`.
* Go errors are values of `GoError`; `authErr` mirrors the helper at the
  bottom of store.go, `GoError.notExist` the error `os.Open` returns for a
  missing file (the one `os.IsNotExist` recognises).
* The file system is a state `FS` threaded through each operation.
  `FS.writeOk` models whether creating/writing the credential file
  succeeds (`os.Create` failing is the write-failure mode); `FS.writes`
  counts the file rewrites performed by `setDockerCredentials`, making
  "no unnecessary write" observable.
-/

/-- `credentials.Credentials` from docker-credential-helpers: the opaque
third-party credential value with fields ServerURL, Username, Secret. -/
structure Credentials where
  serverURL : String
  username : String
  secret : String
deriving DecidableEq, Repr

/-- `tokens` (store.go:40-44): GCR access/refresh tokens.  `TokenExpiry`
is a `*time.Time`; note its json tag `token_expiry` has NO `omitempty`. -/
structure Tokens where
  accessToken : String
  refreshToken : String
  tokenExpiry : Option Nat
deriving DecidableEq, Repr

/-- Go `map[string]credentials.Credentials`, canonically represented as a
key-sorted association list with unique keys. -/
abbrev CredMap := List (String × Credentials)

/-- `dockerCredentials` (store.go:46-49).  `gcrCreds` is a possibly-nil
pointer; `otherCreds` is a possibly-nil map (`none` = nil map, which Go
distinguishes from an empty non-nil map `some []`). -/
structure DockerCredentials where
  gcrCreds : Option Tokens
  otherCreds : Option CredMap
deriving DecidableEq, Repr

/-- Lookup in the Go map (first match; canonical maps have unique keys).
A nil map (`none`) never contains a key. -/
def mapLookup : CredMap → String → Option Credentials
  | [], _ => none
  | (k, v) :: rest, u => if k = u then some v else mapLookup rest u

/-- Insertion `m[u] = c` into the canonical sorted representation. -/
def mapInsert : CredMap → String → Credentials → CredMap
  | [], u, c => [(u, c)]
  | (k, v) :: rest, u, c =>
    if u < k then (u, c) :: (k, v) :: rest
    else if u = k then (u, c) :: rest
    else (k, v) :: mapInsert rest u c

/-- Go `delete(m, u)`: removes the (unique) entry with key `u`. -/
def mapErase : CredMap → String → CredMap
  | [], _ => []
  | (k, v) :: rest, u => if k = u then rest else (k, v) :: mapErase rest u

/-- Lookup through a possibly-nil map. -/
def optLookup : Option CredMap → String → Option Credentials
  | none, _ => none
  | some m, u => mapLookup m u

/-- Number of entries of a possibly-nil map. -/
def mapSize : Option CredMap → Nat
  | none => 0
  | some m => m.length

/-- Strictly-increasing keys: the canonical-form invariant of `CredMap`. -/
def MapSorted (m : CredMap) : Prop :=
  List.Pairwise (fun a b : String × Credentials => a.1 < b.1) m

/-- A record whose map (when present) is in canonical form. -/
def RecSorted (r : DockerCredentials) : Prop :=
  MapSorted (r.otherCreds.getD [])

/-- JSON value trees (the parse of the credential file's bytes).
`jtime t` stands for the RFC3339 string of instant `t`; `str` stands for
strings that are not valid RFC3339 timestamps. -/
inductive Json where
  | null : Json
  | num : Int → Json
  | str : String → Json
  | jtime : Nat → Json
  | obj : List (String × Json) → Json

/-- Does a JSON object have a field of the given name? -/
def jsonHasKey : Json → String → Bool
  | .obj fields, k => fields.any (fun kv => kv.1 = k)
  | _, _ => false

/-- First value bound to a field name in a JSON object, if any. -/
def jsonField : Json → String → Option Json
  | .obj fields, k => (fields.find? (fun kv => kv.1 = k)).map (fun kv => kv.2)
  | _, _ => none

/-- Marshal of `tokens` (store.go:40-44): `access_token` and
`refresh_token` always present; `token_expiry` has no `omitempty`, so a
nil expiry is written as an explicit `null`. -/
def encodeTokens (t : Tokens) : Json :=
  .obj [("access_token", .str t.accessToken),
        ("refresh_token", .str t.refreshToken),
        ("token_expiry", match t.tokenExpiry with
          | none => .null
          | some e => .jtime e)]

/-- Marshal of `credentials.Credentials` (no json tags, no omitempty):
field names are the Go field names, all three always present. -/
def encodeCredentials (c : Credentials) : Json :=
  .obj [("ServerURL", .str c.serverURL),
        ("Username", .str c.username),
        ("Secret", .str c.secret)]

/-- Marshal of the `otherCreds` map; entries appear in sorted key order
(our canonical list order), as `encoding/json` sorts map keys. -/
def encodeOtherMap (m : CredMap) : Json :=
  .obj (m.map (fun kc => (kc.1, encodeCredentials kc.2)))

/-- Marshal of `dockerCredentials` (store.go:46-49): `gcrCreds` is
`omitempty` on a pointer (omitted iff nil); `otherCreds` is `omitempty`
on a map (omitted iff nil OR empty — Go's omitempty treats a non-nil
empty map as empty). -/
def encodeDC (r : DockerCredentials) : Json :=
  .obj ((match r.gcrCreds with
          | none => []
          | some t => [("gcrCreds", encodeTokens t)]) ++
        (match r.otherCreds with
          | none => []
          | some [] => []
          | some m => [("otherCreds", encodeOtherMap m)]))

/-- Unmarshal a JSON value into a Go `string` field holding `cur`:
JSON null is a no-op, a string replaces the value, anything else is a
type error. -/
def decodeStringField (cur : String) : Json → Option String
  | .null => some cur
  | .str s => some s
  | _ => none

/-- Unmarshal a JSON value into a `*time.Time` field: null sets the
pointer to nil, a valid RFC3339 string parses to its instant, anything
else (including a non-timestamp string) is an error. -/
def decodeExpiryField : Json → Option (Option Nat)
  | .null => some none
  | .jtime t => some (some t)
  | _ => none

/-- Unmarshal the fields of a JSON object into a `tokens` struct holding
`t`, processing keys in order (later duplicates overwrite), ignoring
unknown keys — exactly `encoding/json`'s struct decoding. -/
def decodeTokensFields (t : Tokens) : List (String × Json) → Option Tokens
  | [] => some t
  | (k, v) :: rest =>
    if k = "access_token" then
      (decodeStringField t.accessToken v).bind fun a =>
        decodeTokensFields { t with accessToken := a } rest
    else if k = "refresh_token" then
      (decodeStringField t.refreshToken v).bind fun a =>
        decodeTokensFields { t with refreshToken := a } rest
    else if k = "token_expiry" then
      (decodeExpiryField v).bind fun e =>
        decodeTokensFields { t with tokenExpiry := e } rest
    else decodeTokensFields t rest

/-- Unmarshal a JSON value into the `*tokens` field currently holding
`cur`: null sets the pointer to nil; an object decodes into the pointee
(allocating a zero `tokens` when the pointer is nil); anything else is a
type error. -/
def decodeTokensValue (cur : Option Tokens) : Json → Option (Option Tokens)
  | .null => some none
  | .obj fields =>
    (decodeTokensFields (cur.getD ⟨"", "", none⟩) fields).map some
  | _ => none

/-- Unmarshal the fields of a JSON object into a `Credentials` struct. -/
def decodeCredsFields (c : Credentials) :
    List (String × Json) → Option Credentials
  | [] => some c
  | (k, v) :: rest =>
    if k = "ServerURL" then
      (decodeStringField c.serverURL v).bind fun s =>
        decodeCredsFields { c with serverURL := s } rest
    else if k = "Username" then
      (decodeStringField c.username v).bind fun s =>
        decodeCredsFields { c with username := s } rest
    else if k = "Secret" then
      (decodeStringField c.secret v).bind fun s =>
        decodeCredsFields { c with secret := s } rest
    else decodeCredsFields c rest

/-- Unmarshal a JSON value into a fresh map element of type
`Credentials`: null is a no-op on the zero value (the entry is still
stored), an object decodes field-wise, anything else is a type error. -/
def decodeCredsValue : Json → Option Credentials
  | .null => some ⟨"", "", ""⟩
  | .obj fields => decodeCredsFields ⟨"", "", ""⟩ fields
  | _ => none

/-- Unmarshal a JSON object's entries into the map `acc`, storing each
decoded value under its key in order (later duplicates overwrite). -/
def decodeOtherFields (acc : CredMap) :
    List (String × Json) → Option CredMap
  | [] => some acc
  | (k, v) :: rest =>
    (decodeCredsValue v).bind fun c =>
      decodeOtherFields (mapInsert acc k c) rest

/-- Unmarshal a JSON value into the `otherCreds` map currently holding
`cur`: null is a no-op for maps; an object reuses the existing map
(allocating when nil) and stores its entries; anything else errors. -/
def decodeOtherValue (cur : Option CredMap) : Json → Option (Option CredMap)
  | .null => some cur
  | .obj fields => (decodeOtherFields (cur.getD []) fields).map some
  | _ => none

/-- Unmarshal the fields of the top-level JSON object into a
`dockerCredentials` struct holding `r`. -/
def decodeDCFields (r : DockerCredentials) :
    List (String × Json) → Option DockerCredentials
  | [] => some r
  | (k, v) :: rest =>
    if k = "gcrCreds" then
      (decodeTokensValue r.gcrCreds v).bind fun g =>
        decodeDCFields { r with gcrCreds := g } rest
    else if k = "otherCreds" then
      (decodeOtherValue r.otherCreds v).bind fun o =>
        decodeDCFields { r with otherCreds := o } rest
    else decodeDCFields r rest

/-- Unmarshal of the whole file (store.go:254-257): a JSON null leaves
the zero `dockerCredentials` (no error, per `encoding/json`); a JSON
object decodes field-wise; any other top level is a type error. -/
def decodeDC : Json → Option DockerCredentials
  | .null => some ⟨none, none⟩
  | .obj fields => decodeDCFields ⟨none, none⟩ fields
  | _ => none

/-- Resolved path of the credential file (store.go:275-294).  Path
resolution is environment-dependent; the store operations only thread the
already-resolved path through, so it is modelled as a fixed string. -/
def credentialPath : String := "$HOME/.config/gcloud/docker_credentials.json"

/-- Go error values observable from the store's public operations. -/
inductive GoError where
  | notExist : String → GoError
  | auth : String → Option GoError → GoError
  | goError : String → GoError
  | jsonError : String → GoError

/-- `authErr` (store.go:304-309): wraps a message (and optional cause)
with the fixed origin marker `docker-credential-gcr/store:`. -/
def authErr (message : String) (cause : Option GoError) : GoError :=
  .auth message cause

/-- `os.IsNotExist`: true exactly for the error `os.Open` returns when
the file is absent. -/
def isNotExist : GoError → Bool
  | .notExist _ => true
  | _ => false

/-- The `Error()` string of a `GoError` (`fmt.Errorf` formatting in
`authErr`, store.go:304-309). -/
def errMessage : GoError → String
  | .notExist p => "open " ++ p ++ ": no such file or directory"
  | .auth m none => "docker-credential-gcr/store: " ++ m
  | .auth m (some e) => "docker-credential-gcr/store: " ++ m ++ ": " ++ errMessage e
  | .goError m => m
  | .jsonError m => m

/-- Does a string begin with the store's fixed origin marker? -/
def strHasTag (s : String) : Bool :=
  List.isPrefixOf "docker-credential-gcr/store: ".data s.data

/-- Contents of the credential file: absent; present but not
syntactically valid JSON (carrying its raw bytes); or present and parsing
to the tree `j`. -/
inductive FileContents where
  | absent : FileContents
  | malformed : String → FileContents
  | json : Json → FileContents

/-- File-system state threaded through the store operations.  `writeOk`
models whether `os.Create` of the credential file succeeds; `writes`
counts rewrites of the file. -/
structure FS where
  file : FileContents
  writeOk : Bool
  writes : Nat

/-- `credStore.loadDockerCredentials` (store.go:246-260): a missing file
surfaces the raw `os.Open` error untouched; a file whose contents fail to
decode surfaces the decode error wrapped by `authErr` with the path. -/
def loadDockerCredentials (fs : FS) : Except GoError DockerCredentials :=
  match fs.file with
  | .absent => .error (.notExist credentialPath)
  | .malformed raw =>
    .error (authErr ("failed to decode credentials from " ++ credentialPath)
      (some (.jsonError ("invalid character in " ++ raw))))
  | .json j =>
    match decodeDC j with
    | some r => .ok r
    | none =>
      .error (authErr ("failed to decode credentials from " ++ credentialPath)
        (some (.jsonError "json: cannot unmarshal value")))

/-- `credStore.setDockerCredentials` (store.go:262-273), together with
`createCredentialFile` (store.go:233-244): truncates/creates the file and
writes the encoded record; on create failure returns the wrapped error
and leaves the file as it was. -/
def setDockerCredentials (fs : FS) (r : DockerCredentials) :
    Option GoError × FS :=
  if fs.writeOk then
    (none, { fs with file := .json (encodeDC r), writes := fs.writes + 1 })
  else
    (some (authErr "failed to create credential file"
      (some (.goError "create failed"))), fs)

/-- `credStore.AllThirdPartyCreds` (store.go:155-162): returns the
record's `OtherCreds` map (possibly nil) or the load error. -/
def AllThirdPartyCreds (fs : FS) : Except GoError (Option CredMap) :=
  match loadDockerCredentials fs with
  | .error e => .error e
  | .ok allCreds => .ok allCreds.otherCreds

/-- `credStore.GetOtherCreds` (store.go:95-107). -/
def GetOtherCreds (fs : FS) (serverURL : String) :
    Except GoError Credentials :=
  match AllThirdPartyCreds fs with
  | .error e => .error e
  | .ok all3pCreds =>
    match optLookup all3pCreds serverURL with
    | none => .error (authErr ("no credentials present for " ++ serverURL) none)
    | some creds => .ok creds

/-- `credStore.SetOtherCreds` (store.go:111-127).  The Go function
mutates its argument (`newCreds.ServerURL = ""`) before loading; the
final component of the result is the caller's credential object after the
call.  A failed load (any reason) falls back to an empty record. -/
def SetOtherCreds (fs : FS) (newCreds : Credentials) :
    Option GoError × FS × Credentials :=
  let serverURL := newCreds.serverURL
  let cleared : Credentials := { newCreds with serverURL := "" }
  let creds : DockerCredentials :=
    match loadDockerCredentials fs with
    | .ok c => c
    | .error _ => ⟨none, none⟩
  let m : CredMap := creds.otherCreds.getD []
  let r : DockerCredentials :=
    { creds with otherCreds := some (mapInsert m serverURL cleared) }
  let out := setDockerCredentials fs r
  (out.1, out.2, cleared)

/-- `credStore.DeleteOtherCreds` (store.go:132-151): a missing file is
success; any other load error is returned; the file is rewritten only
when the entry actually existed. -/
def DeleteOtherCreds (fs : FS) (serverURL : String) : Option GoError × FS :=
  match loadDockerCredentials fs with
  | .error e => if isNotExist e then (none, fs) else (some e, fs)
  | .ok creds =>
    match creds.otherCreds with
    | none => (none, fs)
    | some m =>
      if (mapLookup m serverURL).isSome then
        setDockerCredentials fs
          { creds with otherCreds := some (mapErase m serverURL) }
      else (none, fs)

/-- The part of `GCRAuth` (store.go:52-55, 180-193) determined by the
store: the initial token handed to the OAuth2 config.  A nil stored
expiry becomes the zero time. -/
structure GCRAuth where
  accessToken : String
  refreshToken : String
  expiry : Nat
deriving DecidableEq, Repr

/-- An `oauth2.Token` as consumed by `SetGCRAuth`. -/
structure OAuthToken where
  accessToken : String
  refreshToken : String
  expiry : Nat
deriving DecidableEq, Repr

/-- `credStore.GetGCRAuth` (store.go:165-194): load errors propagate; a
record without GCR credentials yields the plain (unwrapped) error
`GCR Credentials not present in store`. -/
def GetGCRAuth (fs : FS) : Except GoError GCRAuth :=
  match loadDockerCredentials fs with
  | .error e => .error e
  | .ok creds =>
    match creds.gcrCreds with
    | none => .error (.goError "GCR Credentials not present in store")
    | some t => .ok ⟨t.accessToken, t.refreshToken, t.tokenExpiry.getD 0⟩

/-- `credStore.SetGCRAuth` (store.go:197-212): failed load falls back to
an empty record; the stored expiry pointer is always non-nil
(`&tok.Expiry`). -/
def SetGCRAuth (fs : FS) (tok : OAuthToken) : Option GoError × FS :=
  let creds : DockerCredentials :=
    match loadDockerCredentials fs with
    | .ok c => c
    | .error _ => ⟨none, none⟩
  setDockerCredentials fs
    { creds with
      gcrCreds := some ⟨tok.accessToken, tok.refreshToken, some tok.expiry⟩ }

/-- `credStore.DeleteGCRAuth` (store.go:215-231): missing file is
success; the file is rewritten only when GCR credentials were present. -/
def DeleteGCRAuth (fs : FS) : Option GoError × FS :=
  match loadDockerCredentials fs with
  | .error e => if isNotExist e then (none, fs) else (some e, fs)
  | .ok creds =>
    match creds.gcrCreds with
    | some _ => setDockerCredentials fs { creds with gcrCreds := none }
    | none => (none, fs)

/-- A well-formed store state: the file is absent or decodes cleanly
(the states reachable without external corruption). -/
def wfFile : FileContents → Bool
  | .absent => true
  | .malformed _ => false
  | .json j => (decodeDC j).isSome

/-- The file exists but its contents do not decode to a record. -/
def decodeFails : FileContents → Bool
  | .absent => false
  | .malformed _ => true
  | .json j => (decodeDC j).isNone

/-- NotFoundError classification, modelled from the spec's error
taxonomy (§7): an error denoting that the file or the requested
credential is absent — the raw not-exist error from `os.Open`, the
`no credentials present for ...` error of `GetOtherCreds`, or the
`GCR Credentials not present in store` error of `GetGCRAuth`. -/
def isNotFoundError : GoError → Bool
  | .notExist _ => true
  | .auth m none => List.isPrefixOf "no credentials present for ".data m.data
  | .goError m => m = "GCR Credentials not present in store"
  | _ => false

/-- DecodeError classification, modelled from the spec's error taxonomy
(§7): the wrapped `failed to decode credentials from <path>` error. -/
def isDecodeError : GoError → Bool
  | .auth m (some _) =>
    List.isPrefixOf "failed to decode credentials from ".data m.data
  | _ => false

/-- The record with both fields absent (the zero `dockerCredentials`). -/
def emptyDC : DockerCredentials := ⟨none, none⟩

/-- Decoding collapses a present-but-empty `otherCreds` map to a nil
map, because `omitempty` drops the empty map at encode time; `canonDC`
is the image of a record under that collapse. -/
def canonDC (r : DockerCredentials) : DockerCredentials :=
  { r with otherCreds := match r.otherCreds with
      | some [] => none
      | o => o }

/-- The record a `set` operation proceeds from: the loaded record, or the
empty record when loading failed for any reason (store.go:114-119,
198-203). -/
def loadOrEmpty (fs : FS) : DockerCredentials :=
  match loadDockerCredentials fs with
  | .ok c => c
  | .error _ => ⟨none, none⟩

/-- The record `SetOtherCreds` hands to `setDockerCredentials`
(store.go:120-126). -/
def setOtherRecord (fs : FS) (newCreds : Credentials) : DockerCredentials :=
  { loadOrEmpty fs with
    otherCreds := some (mapInsert ((loadOrEmpty fs).otherCreds.getD [])
      newCreds.serverURL { newCreds with serverURL := "" }) }

/-- The record `SetGCRAuth` hands to `setDockerCredentials`
(store.go:205-211). -/
def setGCRRecord (fs : FS) (tok : OAuthToken) : DockerCredentials :=
  { loadOrEmpty fs with
    gcrCreds := some ⟨tok.accessToken, tok.refreshToken, some tok.expiry⟩ }

/-! ### Map lemmas: the canonical sorted association list -/

theorem mapLookup_insert (m : CredMap) (u : String) (c : Credentials) :
    mapLookup (mapInsert m u c) u = some c := by
  induction m with
  | nil => simp [mapInsert, mapLookup]
  | cons kv rest ih =>
    obtain ⟨k, v⟩ := kv
    by_cases h1 : u < k
    · simp [mapInsert, h1, mapLookup]
    · by_cases h2 : u = k
      · simp [mapInsert, h1, h2, mapLookup]
      · have h3 : ¬k = u := fun e => h2 e.symm
        simp [mapInsert, h1, h2, mapLookup, h3, ih]

theorem mem_mapInsert {x : String × Credentials} {m : CredMap} {u : String}
    {c : Credentials} (hx : x ∈ mapInsert m u c) : x ∈ m ∨ x = (u, c) := by
  induction m with
  | nil => simp [mapInsert] at hx; simp [hx]
  | cons kv rest ih =>
    obtain ⟨k, v⟩ := kv
    by_cases h1 : u < k
    · simp [mapInsert, h1] at hx
      rcases hx with h | h | h
      · exact Or.inr (by simp [h])
      · exact Or.inl (by simp [h])
      · exact Or.inl (by simp [h])
    · by_cases h2 : u = k
      · simp [mapInsert, h1, h2] at hx
        rcases hx with h | h
        · exact Or.inr (by simp [h, h2])
        · exact Or.inl (by simp [h])
      · simp [mapInsert, h1, h2] at hx
        rcases hx with h | h
        · exact Or.inl (by simp [h])
        · rcases ih h with h' | h'
          · exact Or.inl (by simp [h'])
          · exact Or.inr h'

theorem mapSorted_insert {m : CredMap} (hm : MapSorted m) (u : String)
    (c : Credentials) : MapSorted (mapInsert m u c) := by
  induction m with
  | nil => simp [mapInsert, MapSorted]
  | cons kv rest ih =>
    obtain ⟨k, v⟩ := kv
    rw [MapSorted, List.pairwise_cons] at hm
    obtain ⟨hhead, htail⟩ := hm
    by_cases h1 : u < k
    · rw [MapSorted]
      simp only [mapInsert, h1, if_pos]
      refine List.Pairwise.cons ?_ (List.Pairwise.cons hhead htail)
      intro y hy
      rcases List.mem_cons.mp hy with h | h
      · simp [h, h1]
      · exact lt_trans h1 (hhead y h)
    · by_cases h2 : u = k
      · subst h2
        rw [MapSorted]
        simp only [mapInsert, lt_self_iff_false, ite_false, ite_true]
        exact List.Pairwise.cons (fun y hy => hhead y hy) htail
      · have hk : k < u :=
          lt_of_le_of_ne (not_lt.mp h1) (fun e => h2 e.symm)
        rw [MapSorted]
        simp only [mapInsert, h1, h2, if_neg, ite_false]
        refine List.Pairwise.cons ?_ (ih htail)
        intro y hy
        rcases mem_mapInsert hy with h | h
        · exact hhead y h
        · simp [h, hk]

theorem mem_mapErase {x : String × Credentials} {m : CredMap} {u : String}
    (hx : x ∈ mapErase m u) : x ∈ m := by
  induction m with
  | nil => exact hx
  | cons kv rest ih =>
    obtain ⟨k, v⟩ := kv
    by_cases h1 : k = u
    · simp [mapErase, h1] at hx
      exact List.mem_cons_of_mem _ hx
    · simp [mapErase, h1] at hx
      rcases hx with h | h
      · simp [h]
      · exact List.mem_cons_of_mem _ (ih h)

theorem mapSorted_erase {m : CredMap} (hm : MapSorted m) (u : String) :
    MapSorted (mapErase m u) := by
  induction m with
  | nil => exact hm
  | cons kv rest ih =>
    obtain ⟨k, v⟩ := kv
    rw [MapSorted, List.pairwise_cons] at hm
    obtain ⟨hhead, htail⟩ := hm
    by_cases h1 : k = u
    · simpa [mapErase, h1, MapSorted] using htail
    · rw [MapSorted]
      simp only [mapErase, h1, ite_false]
      exact List.Pairwise.cons (fun y hy => hhead y (mem_mapErase hy)) (ih htail)

theorem mapLookup_eq_none {m : CredMap} {u : String}
    (h : ∀ x ∈ m, x.1 ≠ u) : mapLookup m u = none := by
  induction m with
  | nil => rfl
  | cons kv rest ih =>
    obtain ⟨k, v⟩ := kv
    have hk : k ≠ u := h (k, v) (List.mem_cons_self _ _)
    simp only [mapLookup, hk, ite_false]
    exact ih (fun x hx => h x (List.mem_cons_of_mem _ hx))

theorem mapLookup_erase_self {m : CredMap} (hm : MapSorted m) (u : String) :
    mapLookup (mapErase m u) u = none := by
  induction m with
  | nil => rfl
  | cons kv rest ih =>
    obtain ⟨k, v⟩ := kv
    rw [MapSorted, List.pairwise_cons] at hm
    obtain ⟨hhead, htail⟩ := hm
    by_cases h1 : k = u
    · simp only [mapErase, h1, ite_true]
      exact mapLookup_eq_none (fun x hx => ne_of_gt (h1 ▸ hhead x hx))
    · simp only [mapErase, h1, ite_false, mapLookup]
      exact ih htail

theorem mapInsert_ne_nil (m : CredMap) (u : String) (c : Credentials) :
    mapInsert m u c ≠ [] := by
  cases m with
  | nil => simp [mapInsert]
  | cons kv rest =>
    obtain ⟨k, v⟩ := kv
    by_cases h1 : u < k
    · simp [mapInsert, h1]
    · by_cases h2 : u = k <;> simp [mapInsert, h1, h2]

/-! ### Codec lemmas: round-trip and canonical form -/

theorem decodeCredsValue_encode (c : Credentials) :
    decodeCredsValue (encodeCredentials c) = some c := by
  simp [encodeCredentials, decodeCredsValue, decodeCredsFields, decodeStringField]

theorem decodeTokensValue_encode (t : Tokens) :
    decodeTokensValue none (encodeTokens t) = some (some t) := by
  obtain ⟨a, r, ex⟩ := t
  cases ex <;>
    simp [encodeTokens, decodeTokensValue, decodeTokensFields,
      decodeStringField, decodeExpiryField]

theorem mapInsert_append (pre : CredMap) (u : String) (c : Credentials)
    (h : ∀ x ∈ pre, x.1 < u) : mapInsert pre u c = pre ++ [(u, c)] := by
  induction pre with
  | nil => rfl
  | cons kv rest ih =>
    obtain ⟨k, v⟩ := kv
    have hk : k < u := h (k, v) (List.mem_cons_self _ _)
    have h1 : ¬u < k := not_lt.mpr (le_of_lt hk)
    have h2 : u ≠ k := ne_of_gt hk
    simp only [mapInsert, h1, h2, ite_false, List.cons_append, List.cons.injEq,
      true_and]
    exact ih (fun x hx => h x (List.mem_cons_of_mem _ hx))

theorem decodeOtherFields_encode (m : CredMap) : ∀ pre : CredMap,
    MapSorted (pre ++ m) →
    decodeOtherFields pre (m.map (fun kc => (kc.1, encodeCredentials kc.2))) =
      some (pre ++ m) := by
  induction m with
  | nil => intro pre _; simp [decodeOtherFields]
  | cons kc rest ih =>
    intro pre hs
    obtain ⟨k, c⟩ := kc
    have hpre : ∀ x ∈ pre, x.1 < k := by
      intro x hx
      have := (List.pairwise_append.mp (by exact hs)).2.2 x hx (k, c)
        (List.mem_cons_self _ _)
      exact this
    simp only [List.map_cons, decodeOtherFields, decodeCredsValue_encode,
      Option.bind_some, Option.some_bind]
    rw [mapInsert_append pre k c hpre]
    have hre : pre ++ (k, c) :: rest = (pre ++ [(k, c)]) ++ rest := by simp
    rw [hre] at hs ⊢
    exact ih (pre ++ [(k, c)]) hs

theorem decodeOtherValue_encode {m : CredMap} (hm : MapSorted m) :
    decodeOtherValue none (encodeOtherMap m) = some (some m) := by
  have := decodeOtherFields_encode m [] (by simpa using hm)
  simp only [encodeOtherMap, decodeOtherValue, Option.getD_none]
  simp only [List.nil_append] at this
  simp [this]

theorem canonDC_eq {r : DockerCredentials} (h : r.otherCreds ≠ some []) :
    canonDC r = r := by
  obtain ⟨g, o⟩ := r
  rcases o with _ | (_ | ⟨x, xs⟩)
  · rfl
  · exact absurd rfl h
  · rfl

theorem decodeDC_encode {r : DockerCredentials} (hs : RecSorted r) :
    decodeDC (encodeDC r) = some (canonDC r) := by
  obtain ⟨g, o⟩ := r
  rcases g with _ | t <;> rcases o with _ | (_ | ⟨x, xs⟩)
  · rfl
  · rfl
  · have hm : MapSorted (x :: xs) := by simpa [RecSorted, MapSorted] using hs
    simp [encodeDC, decodeDC, decodeDCFields, decodeOtherValue_encode hm, canonDC]
  · simp [encodeDC, decodeDC, decodeDCFields, decodeTokensValue_encode, canonDC]
  · simp [encodeDC, decodeDC, decodeDCFields, decodeTokensValue_encode, canonDC]
  · have hm : MapSorted (x :: xs) := by simpa [RecSorted, MapSorted] using hs
    simp [encodeDC, decodeDC, decodeDCFields, decodeTokensValue_encode,
      decodeOtherValue_encode hm, canonDC]

/-! ### Decoding yields canonical (sorted) maps -/

theorem decodeOtherFields_sorted : ∀ (l : List (String × Json)) (acc m : CredMap),
    MapSorted acc → decodeOtherFields acc l = some m → MapSorted m := by
  intro l
  induction l with
  | nil =>
    intro acc m ha h
    simp [decodeOtherFields] at h
    exact h ▸ ha
  | cons kv rest ih =>
    intro acc m ha h
    obtain ⟨k, v⟩ := kv
    simp only [decodeOtherFields] at h
    cases hv : decodeCredsValue v with
    | none => rw [hv] at h; simp at h
    | some c =>
      rw [hv] at h
      simp only [Option.some_bind] at h
      exact ih (mapInsert acc k c) m (mapSorted_insert ha k c) h

theorem decodeOtherValue_sorted {cur : Option CredMap} {j : Json}
    {o : Option CredMap} (hc : MapSorted (cur.getD []))
    (h : decodeOtherValue cur j = some o) : MapSorted (o.getD []) := by
  cases j with
  | null => simp [decodeOtherValue] at h; exact h ▸ hc
  | obj fields =>
    simp only [decodeOtherValue, Option.map_eq_some'] at h
    obtain ⟨m, hm, rfl⟩ := h
    simpa using decodeOtherFields_sorted fields (cur.getD []) m hc hm
  | num n => simp [decodeOtherValue] at h
  | str s => simp [decodeOtherValue] at h
  | jtime t => simp [decodeOtherValue] at h

theorem decodeDCFields_sorted : ∀ (l : List (String × Json))
    (r r' : DockerCredentials), MapSorted (r.otherCreds.getD []) →
    decodeDCFields r l = some r' → MapSorted (r'.otherCreds.getD []) := by
  intro l
  induction l with
  | nil =>
    intro r r' hr h
    simp [decodeDCFields] at h
    exact h ▸ hr
  | cons kv rest ih =>
    intro r r' hr h
    obtain ⟨k, v⟩ := kv
    by_cases h1 : k = "gcrCreds"
    · simp only [decodeDCFields, h1, ite_true] at h
      cases hg : decodeTokensValue r.gcrCreds v with
      | none => rw [hg] at h; simp at h
      | some g =>
        rw [hg] at h
        simp only [Option.some_bind] at h
        exact ih { r with gcrCreds := g } r' hr h
    · by_cases h2 : k = "otherCreds"
      · simp only [decodeDCFields, h1, h2, ite_true, ite_false] at h
        cases ho : decodeOtherValue r.otherCreds v with
        | none => rw [ho] at h; simp at h
        | some o =>
          rw [ho] at h
          simp only [Option.some_bind] at h
          exact ih { r with otherCreds := o } r'
            (decodeOtherValue_sorted hr ho) h
      · simp only [decodeDCFields, h1, h2, ite_false] at h
        exact ih r r' hr h

theorem decodeDC_sorted {j : Json} {r : DockerCredentials}
    (h : decodeDC j = some r) : RecSorted r := by
  cases j with
  | null =>
    simp [decodeDC] at h
    rw [RecSorted, ← h]
    exact List.Pairwise.nil
  | obj fields =>
    exact decodeDCFields_sorted fields ⟨none, none⟩ r List.Pairwise.nil h
  | num n => simp [decodeDC] at h
  | str s => simp [decodeDC] at h
  | jtime t => simp [decodeDC] at h

theorem load_sorted {fs : FS} {r : DockerCredentials}
    (h : loadDockerCredentials fs = .ok r) : RecSorted r := by
  cases hf : fs.file with
  | absent => simp [loadDockerCredentials, hf] at h
  | malformed raw => simp [loadDockerCredentials, hf] at h
  | json j =>
    simp only [loadDockerCredentials, hf] at h
    cases hd : decodeDC j with
    | none => rw [hd] at h; simp at h
    | some r0 =>
      rw [hd] at h
      simp only [Except.ok.injEq] at h
      exact h ▸ decodeDC_sorted hd

/-! ### Error-message and basic store-operation lemmas -/

theorem isPre_append (l t : List Char) : List.isPrefixOf l (l ++ t) = true := by
  induction l with
  | nil => cases t <;> rfl
  | cons a as ih => simp [List.isPrefixOf, ih]

theorem strHasTag_auth (m : String) (c : Option GoError) :
    strHasTag (errMessage (.auth m c)) = true := by
  cases c with
  | none => simp [errMessage, strHasTag, String.data_append, isPre_append]
  | some e =>
    simp [errMessage, strHasTag, String.data_append, List.append_assoc,
      isPre_append]

theorem isNotFoundError_noCreds (u : String) :
    isNotFoundError (authErr ("no credentials present for " ++ u) none) = true := by
  simp [isNotFoundError, authErr, String.data_append, isPre_append]

theorem isDecodeError_load (tail : String) (c : GoError) :
    isDecodeError (authErr ("failed to decode credentials from " ++ tail)
      (some c)) = true := by
  simp [isDecodeError, authErr, String.data_append, isPre_append]

theorem setDockerCredentials_ok {fs : FS} (r : DockerCredentials)
    (hw : fs.writeOk = true) :
    setDockerCredentials fs r =
      (none, { fs with file := .json (encodeDC r), writes := fs.writes + 1 }) := by
  simp [setDockerCredentials, hw]

theorem setDockerCredentials_fail {fs : FS} (r : DockerCredentials)
    (hw : fs.writeOk = false) :
    setDockerCredentials fs r =
      (some (authErr "failed to create credential file"
        (some (.goError "create failed"))), fs) := by
  simp [setDockerCredentials, hw]

theorem load_after_set {fs : FS} {r : DockerCredentials}
    (hw : fs.writeOk = true) (hr : RecSorted r) :
    loadDockerCredentials (setDockerCredentials fs r).2 = .ok (canonDC r) := by
  rw [setDockerCredentials_ok r hw]
  simp [loadDockerCredentials, decodeDC_encode hr]

theorem SetOtherCreds_eq (fs : FS) (c : Credentials) :
    SetOtherCreds fs c =
      ((setDockerCredentials fs (setOtherRecord fs c)).1,
       (setDockerCredentials fs (setOtherRecord fs c)).2,
       { c with serverURL := "" }) := rfl

theorem SetGCRAuth_eq (fs : FS) (tok : OAuthToken) :
    SetGCRAuth fs tok = setDockerCredentials fs (setGCRRecord fs tok) := rfl

theorem loadOrEmpty_sorted (fs : FS) : RecSorted (loadOrEmpty fs) := by
  rw [loadOrEmpty]
  cases h : loadDockerCredentials fs with
  | ok r => exact load_sorted h
  | error e => exact List.Pairwise.nil

theorem setOtherRecord_sorted (fs : FS) (c : Credentials) :
    RecSorted (setOtherRecord fs c) := by
  rw [RecSorted, setOtherRecord]
  exact mapSorted_insert (loadOrEmpty_sorted fs) _ _

theorem setGCRRecord_sorted (fs : FS) (tok : OAuthToken) :
    RecSorted (setGCRRecord fs tok) := by
  rw [RecSorted, setGCRRecord]
  exact loadOrEmpty_sorted fs

theorem load_decodeFails {fs : FS} (h : decodeFails fs.file = true) :
    ∃ c, loadDockerCredentials fs =
      .error (authErr ("failed to decode credentials from " ++ credentialPath)
        (some c)) := by
  cases hf : fs.file with
  | absent => rw [hf] at h; simp [decodeFails] at h
  | malformed raw =>
    exact ⟨.jsonError ("invalid character in " ++ raw),
      by simp [loadDockerCredentials, hf]⟩
  | json j =>
    rw [hf] at h
    simp only [decodeFails] at h
    cases hd : decodeDC j with
    | some r => rw [hd] at h; simp at h
    | none =>
      refine ⟨.jsonError "json: cannot unmarshal value", ?_⟩
      simp [loadDockerCredentials, hf, hd]

/-! ### Claim theorems -/

/-- C1: for every credential `c` with server URL `u`, after a successful
`SetOtherCreds c` on any prior store state, `GetOtherCreds u` succeeds and
returns `c` with its `serverURL` field cleared to the empty string, and
the stored record's `otherCreds` map holds that cleared value under the
key `u` — the URL lives only in the map key. -/
theorem C1_set_then_get (fs : FS) (c : Credentials)
    (h : (SetOtherCreds fs c).1 = none) :
    GetOtherCreds (SetOtherCreds fs c).2.1 c.serverURL =
      .ok { c with serverURL := "" } ∧
    (SetOtherCreds fs c).2.2 = { c with serverURL := "" } ∧
    ∃ j r, (SetOtherCreds fs c).2.1.file = .json j ∧ decodeDC j = some r ∧
      ∃ m, r.otherCreds = some m ∧
        mapLookup m c.serverURL = some { c with serverURL := "" } := by
  have hw : fs.writeOk = true := by
    by_contra hb
    have hb' : fs.writeOk = false := by
      cases hw' : fs.writeOk
      · rfl
      · exact absurd hw' hb
    rw [SetOtherCreds_eq fs c, setDockerCredentials_fail _ hb'] at h
    simp at h
  have hne : (setOtherRecord fs c).otherCreds ≠ some [] := by
    rw [setOtherRecord]
    simp [mapInsert_ne_nil]
  have hload : loadDockerCredentials (setDockerCredentials fs
      (setOtherRecord fs c)).2 = .ok (setOtherRecord fs c) := by
    rw [load_after_set hw (setOtherRecord_sorted fs c), canonDC_eq hne]
  refine ⟨?_, rfl, ?_⟩
  · rw [SetOtherCreds_eq fs c]
    simp only [GetOtherCreds, AllThirdPartyCreds, hload]
    rw [setOtherRecord]
    simp [optLookup, mapLookup_insert]
  · refine ⟨encodeDC (setOtherRecord fs c), setOtherRecord fs c, ?_, ?_, ?_⟩
    · rw [SetOtherCreds_eq fs c, setDockerCredentials_ok _ hw]
    · rw [decodeDC_encode (setOtherRecord_sorted fs c), canonDC_eq hne]
    · exact ⟨mapInsert ((loadOrEmpty fs).otherCreds.getD []) c.serverURL
        { c with serverURL := "" }, rfl, mapLookup_insert _ _ _⟩

/-- C1 witness: a concrete run on an initially absent file. -/
theorem C1_witness :
    ((SetOtherCreds ⟨.absent, true, 0⟩ ⟨"https://x", "bob", "s3cr3t"⟩).1 =
      none) ∧
    GetOtherCreds (SetOtherCreds ⟨.absent, true, 0⟩
        ⟨"https://x", "bob", "s3cr3t"⟩).2.1 "https://x" =
      .ok ⟨"", "bob", "s3cr3t"⟩ :=
  ⟨rfl, (C1_set_then_get ⟨.absent, true, 0⟩ ⟨"https://x", "bob", "s3cr3t"⟩
    rfl).1⟩

/-- C2 counterexample: the record with a present-but-empty `otherCreds`
map is reachable (deleting the only third-party entry builds exactly this
record and writes its encoding), yet `omitempty` drops the empty map at
encode time, so decoding yields the record with a nil map instead — Go's
`reflect.DeepEqual` distinguishes a nil map from an empty one, so
`decode (encode r) ≠ r` for this reachable `r`. -/
theorem C2_counterexample :
    (DeleteOtherCreds
        ⟨.json (encodeDC ⟨none, some [("u", ⟨"", "bob", "s"⟩)]⟩), true, 0⟩
        "u").2.file =
      .json (encodeDC ⟨none, some ([] : CredMap)⟩) ∧
    decodeDC (encodeDC ⟨none, some ([] : CredMap)⟩) =
      some ⟨none, none⟩ ∧
    (⟨none, none⟩ : DockerCredentials) ≠ ⟨none, some ([] : CredMap)⟩ := by
  refine ⟨rfl, rfl, by decide⟩

/-- C2 amended: `decode (encode r) = r` for every reachable record whose
`otherCreds` map is not present-but-empty (reachable records have
canonically sorted maps); in general `decode (encode r)` returns `r` with
a present-but-empty map collapsed to an absent one. -/
theorem C2_roundtrip (r : DockerCredentials) (hs : RecSorted r)
    (hne : r.otherCreds ≠ some []) :
    decodeDC (encodeDC r) = some r := by
  rw [decodeDC_encode hs, canonDC_eq hne]

/-- C2 witness: round-trip at a concrete record holding both credential
kinds. -/
theorem C2_witness :
    RecSorted ⟨some ⟨"at", "rt", some 5⟩, some [("u", ⟨"", "bob", "s"⟩)]⟩ ∧
    (⟨some ⟨"at", "rt", some 5⟩, some [("u", ⟨"", "bob", "s"⟩)]⟩ :
      DockerCredentials).otherCreds ≠ some [] ∧
    decodeDC (encodeDC ⟨some ⟨"at", "rt", some 5⟩,
        some [("u", ⟨"", "bob", "s"⟩)]⟩) =
      some ⟨some ⟨"at", "rt", some 5⟩, some [("u", ⟨"", "bob", "s"⟩)]⟩ :=
  ⟨by rw [RecSorted]; exact List.pairwise_singleton _ _,
   by simp,
   C2_roundtrip _ (by rw [RecSorted]; exact List.pairwise_singleton _ _)
     (by simp)⟩

/-- C3: `GetOtherCreds u` fails with a not-found-class error both when
the credential file is missing (the raw `os.Open` not-exist error) and
when the file exists but holds no entry for `u` (the wrapped
`no credentials present` error); it fails with a decode error when the
file exists but is corrupt; and it returns the stored credential when the
entry exists. -/
theorem C3_get_other_errors (fs : FS) (u : String) :
    (fs.file = .absent →
      GetOtherCreds fs u = .error (.notExist credentialPath) ∧
      isNotFoundError (.notExist credentialPath) = true) ∧
    (∀ j r, fs.file = .json j → decodeDC j = some r →
      optLookup r.otherCreds u = none →
      GetOtherCreds fs u =
        .error (authErr ("no credentials present for " ++ u) none) ∧
      isNotFoundError (authErr ("no credentials present for " ++ u) none) =
        true) ∧
    (decodeFails fs.file = true →
      ∃ e, GetOtherCreds fs u = .error e ∧ isDecodeError e = true) ∧
    (∀ j r c, fs.file = .json j → decodeDC j = some r →
      optLookup r.otherCreds u = some c → GetOtherCreds fs u = .ok c) := by
  refine ⟨?_, ?_, ?_, ?_⟩
  · intro hf
    constructor
    · simp [GetOtherCreds, AllThirdPartyCreds, loadDockerCredentials, hf]
    · rfl
  · intro j r hf hd hl
    constructor
    · simp [GetOtherCreds, AllThirdPartyCreds, loadDockerCredentials, hf, hd,
        hl]
    · exact isNotFoundError_noCreds u
  · intro hfail
    obtain ⟨c, hc⟩ := load_decodeFails hfail
    refine ⟨authErr ("failed to decode credentials from " ++ credentialPath)
      (some c), ?_, isDecodeError_load _ _⟩
    simp [GetOtherCreds, AllThirdPartyCreds, hc]
  · intro j r c hf hd hl
    simp [GetOtherCreds, AllThirdPartyCreds, loadDockerCredentials, hf, hd, hl]

/-- C3 witness: a missing file, an entry-less file, and a present entry,
at concrete stores. -/
theorem C3_witness :
    ((⟨.absent, true, 0⟩ : FS).file = .absent ∧
      GetOtherCreds ⟨.absent, true, 0⟩ "u" =
        .error (.notExist credentialPath)) ∧
    (decodeDC (.obj []) = some ⟨none, none⟩ ∧
      GetOtherCreds ⟨.json (.obj []), true, 0⟩ "u" =
        .error (authErr ("no credentials present for " ++ "u") none)) ∧
    (decodeFails (FileContents.malformed "oops") = true ∧
      ∃ e, GetOtherCreds ⟨.malformed "oops", true, 0⟩ "u" = .error e ∧
        isDecodeError e = true) :=
  ⟨⟨rfl, ((C3_get_other_errors ⟨.absent, true, 0⟩ "u").1 rfl).1⟩,
   ⟨rfl, ((C3_get_other_errors ⟨.json (.obj []), true, 0⟩ "u").2.1
      (.obj []) ⟨none, none⟩ rfl rfl rfl).1⟩,
   ⟨rfl, (C3_get_other_errors ⟨.malformed "oops", true, 0⟩ "u").2.2.1 rfl⟩⟩

/-- C4: the set operations never fail because the prior record could not
be loaded: a set succeeds exactly when the write succeeds, any failure is
the write failure itself, and when loading fails for any reason (missing
or corrupt file) the write proceeds from the empty record. -/
theorem C4_sets_never_blocked (fs : FS) (c : Credentials)
    (tok : OAuthToken) :
    ((SetOtherCreds fs c).1 = none ↔ fs.writeOk = true) ∧
    ((SetGCRAuth fs tok).1 = none ↔ fs.writeOk = true) ∧
    (∀ e, (SetOtherCreds fs c).1 = some e →
      fs.writeOk = false ∧
      e = authErr "failed to create credential file"
        (some (.goError "create failed"))) ∧
    (∀ e, (SetGCRAuth fs tok).1 = some e →
      fs.writeOk = false ∧
      e = authErr "failed to create credential file"
        (some (.goError "create failed"))) ∧
    ((∃ e0, loadDockerCredentials fs = .error e0) → fs.writeOk = true →
      (SetOtherCreds fs c).2.1.file =
        .json (encodeDC ⟨none,
          some [(c.serverURL, { c with serverURL := "" })]⟩) ∧
      (SetGCRAuth fs tok).2.file =
        .json (encodeDC ⟨some ⟨tok.accessToken, tok.refreshToken,
          some tok.expiry⟩, none⟩)) := by
  have hrec : ∀ e0, loadDockerCredentials fs = .error e0 →
      loadOrEmpty fs = ⟨none, none⟩ := by
    intro e0 he
    rw [loadOrEmpty, he]
  cases hw : fs.writeOk with
  | true =>
    refine ⟨?_, ?_, ?_, ?_, ?_⟩
    · rw [SetOtherCreds_eq fs c, setDockerCredentials_ok _ hw]; simp
    · rw [SetGCRAuth_eq fs tok, setDockerCredentials_ok _ hw]; simp
    · intro e he
      rw [SetOtherCreds_eq fs c, setDockerCredentials_ok _ hw] at he
      simp at he
    · intro e he
      rw [SetGCRAuth_eq fs tok, setDockerCredentials_ok _ hw] at he
      simp at he
    · rintro ⟨e0, he⟩ _
      have hle := hrec e0 he
      constructor
      · rw [SetOtherCreds_eq fs c, setDockerCredentials_ok _ hw]
        rw [setOtherRecord, hle]
        rfl
      · rw [SetGCRAuth_eq fs tok, setDockerCredentials_ok _ hw]
        rw [setGCRRecord, hle]
  | false =>
    refine ⟨?_, ?_, ?_, ?_, ?_⟩
    · rw [SetOtherCreds_eq fs c, setDockerCredentials_fail _ hw]; simp
    · rw [SetGCRAuth_eq fs tok, setDockerCredentials_fail _ hw]; simp
    · intro e he
      rw [SetOtherCreds_eq fs c, setDockerCredentials_fail _ hw] at he
      simp at he
      exact ⟨rfl, he.symm⟩
    · intro e he
      rw [SetGCRAuth_eq fs tok, setDockerCredentials_fail _ hw] at he
      simp at he
      exact ⟨rfl, he.symm⟩
    · rintro ⟨e0, he⟩ hcontra
      exact absurd hcontra (by simp [hw])

/-- C4 witness: sets on a corrupt file succeed and write records built
from the empty record. -/
theorem C4_witness :
    (∃ e0, loadDockerCredentials ⟨.malformed "oops", true, 0⟩ = .error e0) ∧
    (⟨.malformed "oops", true, 0⟩ : FS).writeOk = true ∧
    (SetOtherCreds ⟨.malformed "oops", true, 0⟩ ⟨"https://x", "bob", "s"⟩).1 =
      none ∧
    (SetOtherCreds ⟨.malformed "oops", true, 0⟩
        ⟨"https://x", "bob", "s"⟩).2.1.file =
      .json (encodeDC ⟨none, some [("https://x", ⟨"", "bob", "s"⟩)]⟩) ∧
    (SetGCRAuth ⟨.malformed "oops", true, 0⟩ ⟨"at", "rt", 99⟩).2.file =
      .json (encodeDC ⟨some ⟨"at", "rt", some 99⟩, none⟩) :=
  ⟨⟨authErr ("failed to decode credentials from " ++ credentialPath)
      (some (.jsonError ("invalid character in " ++ "oops"))), rfl⟩,
   rfl,
   (C4_sets_never_blocked ⟨.malformed "oops", true, 0⟩ ⟨"https://x", "bob", "s"⟩
      ⟨"at", "rt", 99⟩).1.mpr rfl,
   ((C4_sets_never_blocked ⟨.malformed "oops", true, 0⟩
      ⟨"https://x", "bob", "s"⟩ ⟨"at", "rt", 99⟩).2.2.2.2
      ⟨authErr ("failed to decode credentials from " ++ credentialPath)
        (some (.jsonError ("invalid character in " ++ "oops"))), rfl⟩ rfl).1,
   ((C4_sets_never_blocked ⟨.malformed "oops", true, 0⟩
      ⟨"https://x", "bob", "s"⟩ ⟨"at", "rt", 99⟩).2.2.2.2
      ⟨authErr ("failed to decode credentials from " ++ credentialPath)
        (some (.jsonError ("invalid character in " ++ "oops"))), rfl⟩ rfl).2⟩

/-- C5: on a file whose contents do not decode to a record, every read
and both deletes fail with the decode error — deletion surfaces the
corruption instead of succeeding — and the deletes leave the whole store
state (file included) unchanged. -/
theorem C5_corrupt_propagation (fs : FS) (u : String)
    (h : decodeFails fs.file = true) :
    ∃ e, loadDockerCredentials fs = .error e ∧ isDecodeError e = true ∧
      GetOtherCreds fs u = .error e ∧
      GetGCRAuth fs = .error e ∧
      AllThirdPartyCreds fs = .error e ∧
      DeleteOtherCreds fs u = (some e, fs) ∧
      DeleteGCRAuth fs = (some e, fs) := by
  obtain ⟨c, hc⟩ := load_decodeFails h
  refine ⟨authErr ("failed to decode credentials from " ++ credentialPath)
    (some c), hc, isDecodeError_load _ _, ?_, ?_, ?_, ?_, ?_⟩
  · simp [GetOtherCreds, AllThirdPartyCreds, hc]
  · simp [GetGCRAuth, hc]
  · simp [AllThirdPartyCreds, hc]
  · simp [DeleteOtherCreds, hc, isNotExist, authErr]
  · simp [DeleteGCRAuth, hc, isNotExist, authErr]

/-- C5 witness: a concrete corrupt file. -/
theorem C5_witness :
    decodeFails (FileContents.malformed "not json") = true ∧
    ∃ e, loadDockerCredentials ⟨.malformed "not json", true, 0⟩ = .error e ∧
      isDecodeError e = true ∧
      GetOtherCreds ⟨.malformed "not json", true, 0⟩ "u" = .error e ∧
      GetGCRAuth ⟨.malformed "not json", true, 0⟩ = .error e ∧
      AllThirdPartyCreds ⟨.malformed "not json", true, 0⟩ = .error e ∧
      DeleteOtherCreds ⟨.malformed "not json", true, 0⟩ "u" =
        (some e, ⟨.malformed "not json", true, 0⟩) ∧
      DeleteGCRAuth ⟨.malformed "not json", true, 0⟩ =
        (some e, ⟨.malformed "not json", true, 0⟩) :=
  ⟨rfl, C5_corrupt_propagation ⟨.malformed "not json", true, 0⟩ "u" rfl⟩

theorem load_json {fs : FS} {j : Json} {r : DockerCredentials}
    (hf : fs.file = .json j) (hd : decodeDC j = some r) :
    loadDockerCredentials fs = .ok r := by
  simp [loadDockerCredentials, hf, hd]

theorem deleteOther_absent {fs : FS} {u : String} (hf : fs.file = .absent) :
    DeleteOtherCreds fs u = (none, fs) := by
  simp [DeleteOtherCreds, loadDockerCredentials, hf, isNotExist]

theorem deleteGCR_absent {fs : FS} (hf : fs.file = .absent) :
    DeleteGCRAuth fs = (none, fs) := by
  simp [DeleteGCRAuth, loadDockerCredentials, hf, isNotExist]

theorem deleteOther_noentry {fs : FS} {u : String} {j : Json}
    {r : DockerCredentials} (hf : fs.file = .json j)
    (hd : decodeDC j = some r) (hl : optLookup r.otherCreds u = none) :
    DeleteOtherCreds fs u = (none, fs) := by
  simp only [DeleteOtherCreds, load_json hf hd]
  cases ho : r.otherCreds with
  | none => rfl
  | some m =>
    rw [ho] at hl
    simp only [optLookup] at hl
    simp [hl]

theorem deleteGCR_nogcr {fs : FS} {j : Json} {r : DockerCredentials}
    (hf : fs.file = .json j) (hd : decodeDC j = some r)
    (hg : r.gcrCreds = none) : DeleteGCRAuth fs = (none, fs) := by
  simp [DeleteGCRAuth, load_json hf hd, hg]

theorem deleteOther_write {fs : FS} {u : String} {j : Json}
    {r : DockerCredentials} {m : CredMap} (hf : fs.file = .json j)
    (hd : decodeDC j = some r) (hm : r.otherCreds = some m)
    (hsome : (mapLookup m u).isSome = true) :
    DeleteOtherCreds fs u =
      setDockerCredentials fs { r with otherCreds := some (mapErase m u) } := by
  simp [DeleteOtherCreds, load_json hf hd, hm, hsome]

theorem deleteGCR_write {fs : FS} {j : Json} {r : DockerCredentials}
    {t : Tokens} (hf : fs.file = .json j) (hd : decodeDC j = some r)
    (hg : r.gcrCreds = some t) :
    DeleteGCRAuth fs = setDockerCredentials fs { r with gcrCreds := none } := by
  simp [DeleteGCRAuth, load_json hf hd, hg]

theorem deleteOther_second {fs : FS} {r' : DockerCredentials} {u : String}
    (hw : fs.writeOk = true) (hr : RecSorted r')
    (hl : optLookup r'.otherCreds u = none) :
    DeleteOtherCreds (setDockerCredentials fs r').2 u =
      (none, (setDockerCredentials fs r').2) := by
  have hload := load_after_set hw hr
  simp only [DeleteOtherCreds, hload]
  cases ho : r'.otherCreds with
  | none => simp [canonDC, ho]
  | some mm =>
    cases mm with
    | nil => simp [canonDC, ho]
    | cons x xs =>
      rw [ho] at hl
      simp only [optLookup] at hl
      simp [canonDC, ho, hl]

theorem deleteGCR_second {fs : FS} {r' : DockerCredentials}
    (hw : fs.writeOk = true) (hr : RecSorted r') (hg : r'.gcrCreds = none) :
    DeleteGCRAuth (setDockerCredentials fs r').2 =
      (none, (setDockerCredentials fs r').2) := by
  have hload := load_after_set hw hr
  have hcg : (canonDC r').gcrCreds = none := hg
  simp [DeleteGCRAuth, hload, hcg]

/-- C6: on every well-formed store state (absent file included, write
succeeding), both deletes never error, a second identical delete finds
nothing to remove and returns the state of the first call unchanged (no
rewrite), and deletion on an absent file or absent target is a no-op that
does not touch the state at all. -/
theorem C6_delete_idempotent (fs : FS) (u : String)
    (hwf : wfFile fs.file = true) (hw : fs.writeOk = true) :
    ((DeleteOtherCreds fs u).1 = none ∧
     DeleteOtherCreds (DeleteOtherCreds fs u).2 u =
       (none, (DeleteOtherCreds fs u).2) ∧
     (fs.file = .absent → DeleteOtherCreds fs u = (none, fs)) ∧
     (∀ j r, fs.file = .json j → decodeDC j = some r →
       optLookup r.otherCreds u = none →
       DeleteOtherCreds fs u = (none, fs))) ∧
    ((DeleteGCRAuth fs).1 = none ∧
     DeleteGCRAuth (DeleteGCRAuth fs).2 = (none, (DeleteGCRAuth fs).2) ∧
     (fs.file = .absent → DeleteGCRAuth fs = (none, fs)) ∧
     (∀ j r, fs.file = .json j → decodeDC j = some r → r.gcrCreds = none →
       DeleteGCRAuth fs = (none, fs))) := by
  rcases hshape : fs.file with _ | raw | j
  case absent =>
    have d1 := @deleteOther_absent fs u hshape
    have d2 := @deleteGCR_absent fs hshape
    refine ⟨⟨by rw [d1], by rw [d1]; exact d1, fun _ => d1, ?_⟩,
            ⟨by rw [d2], by rw [d2]; exact d2, fun _ => d2, ?_⟩⟩
    · intro j r hf _ _
      simp at hf
    · intro j r hf _ _
      simp at hf
  case malformed =>
    rw [hshape] at hwf
    simp [wfFile] at hwf
  case json =>
    rw [hshape] at hwf
    simp only [wfFile] at hwf
    obtain ⟨r, hd⟩ := Option.isSome_iff_exists.mp hwf
    have hrs : RecSorted r := decodeDC_sorted hd
    have habsJ : ¬(FileContents.json j = FileContents.absent) := by simp
    constructor
    · -- DeleteOtherCreds part
      cases hlook : optLookup r.otherCreds u with
      | none =>
        have d1 := deleteOther_noentry hshape hd hlook
        refine ⟨by rw [d1], by rw [d1]; exact d1, fun hf => absurd hf habsJ,
          ?_⟩
        intro j' r' hf' hd' _
        exact d1
      | some c =>
        obtain ⟨m, hm⟩ : ∃ m, r.otherCreds = some m := by
          cases ho : r.otherCreds with
          | none => rw [ho] at hlook; simp [optLookup] at hlook
          | some m => exact ⟨m, rfl⟩
        have hsome : (mapLookup m u).isSome = true := by
          rw [hm] at hlook
          simp only [optLookup] at hlook
          simp [hlook]
        have hms : MapSorted m := by
          have htmp := hrs
          rw [RecSorted, hm] at htmp
          exact htmp
        have d1 := deleteOther_write hshape hd hm hsome
        have hrs' : RecSorted { r with otherCreds := some (mapErase m u) } := by
          rw [RecSorted]
          exact mapSorted_erase hms u
        refine ⟨?_, ?_, fun hf => absurd hf habsJ, ?_⟩
        · rw [d1, setDockerCredentials_ok _ hw]
        · rw [d1]
          exact deleteOther_second hw hrs' (mapLookup_erase_self hms u)
        · intro j' r' hf' hd' hl''
          injection hf' with hj
          rw [← hj, hd] at hd'
          injection hd' with hr'
          rw [← hr', hm] at hl''
          simp only [optLookup] at hl''
          rw [hl''] at hsome
          simp at hsome
    · -- DeleteGCRAuth part
      cases hg : r.gcrCreds with
      | none =>
        have d2 := deleteGCR_nogcr hshape hd hg
        exact ⟨by rw [d2], by rw [d2]; exact d2, fun hf => absurd hf habsJ,
          fun _ _ _ _ _ => d2⟩
      | some t =>
        have d2 := deleteGCR_write hshape hd hg
        have hrs' : RecSorted { r with gcrCreds := none } := hrs
        refine ⟨?_, ?_, fun hf => absurd hf habsJ, ?_⟩
        · rw [d2, setDockerCredentials_ok _ hw]
        · rw [d2]
          exact deleteGCR_second hw hrs' rfl
        · intro j' r' hf' hd' hg'
          injection hf' with hj
          rw [← hj, hd] at hd'
          injection hd' with hr'
          rw [← hr', hg] at hg'
          simp at hg'

/-- C6 witness: deleting twice at a concrete store holding both a GCR
token and one third-party entry. -/
theorem C6_witness :
    wfFile (FS.mk (.json (encodeDC ⟨some ⟨"at", "rt", some 5⟩,
        some [("u", ⟨"", "bob", "s"⟩)]⟩)) true 0).file = true ∧
    (FS.mk (.json (encodeDC ⟨some ⟨"at", "rt", some 5⟩,
        some [("u", ⟨"", "bob", "s"⟩)]⟩)) true 0).writeOk = true ∧
    ((DeleteOtherCreds (FS.mk (.json (encodeDC ⟨some ⟨"at", "rt", some 5⟩,
        some [("u", ⟨"", "bob", "s"⟩)]⟩)) true 0) "u").1 = none ∧
      DeleteOtherCreds (DeleteOtherCreds (FS.mk (.json (encodeDC
          ⟨some ⟨"at", "rt", some 5⟩, some [("u", ⟨"", "bob", "s"⟩)]⟩))
          true 0) "u").2 "u" =
        (none, (DeleteOtherCreds (FS.mk (.json (encodeDC
          ⟨some ⟨"at", "rt", some 5⟩, some [("u", ⟨"", "bob", "s"⟩)]⟩))
          true 0) "u").2)) ∧
    ((DeleteGCRAuth (FS.mk (.json (encodeDC ⟨some ⟨"at", "rt", some 5⟩,
        some [("u", ⟨"", "bob", "s"⟩)]⟩)) true 0)).1 = none ∧
      DeleteGCRAuth (DeleteGCRAuth (FS.mk (.json (encodeDC
          ⟨some ⟨"at", "rt", some 5⟩, some [("u", ⟨"", "bob", "s"⟩)]⟩))
          true 0)).2 =
        (none, (DeleteGCRAuth (FS.mk (.json (encodeDC
          ⟨some ⟨"at", "rt", some 5⟩, some [("u", ⟨"", "bob", "s"⟩)]⟩))
          true 0)).2)) := by
  have h := C6_delete_idempotent (FS.mk (.json (encodeDC
    ⟨some ⟨"at", "rt", some 5⟩, some [("u", ⟨"", "bob", "s"⟩)]⟩)) true 0)
    "u" rfl rfl
  exact ⟨rfl, rfl, ⟨h.1.1, h.1.2.1⟩, ⟨h.2.1, h.2.2.1⟩⟩

/-- C7 counterexample: a `tokens` record with a nil expiry still carries
a `token_expiry` key — serialised as an explicit null, because the field
lacks `omitempty` — contradicting the claim that the key is absent. -/
theorem C7_counterexample :
    jsonHasKey (encodeTokens ⟨"at", "rt", none⟩) "token_expiry" = true ∧
    jsonField (encodeTokens ⟨"at", "rt", none⟩) "token_expiry" =
      some .null := ⟨rfl, rfl⟩

/-- C7 amended: the encoder omits `gcrCreds` exactly when absent and
`otherCreds` exactly when absent or empty, but a primary-auth entry with
no expiry keeps its `token_expiry` key, serialised as an explicit null
(the field has no `omitempty` tag). -/
theorem C7_field_omission (r : DockerCredentials) (t : Tokens) :
    (jsonHasKey (encodeDC r) "gcrCreds" = false ↔ r.gcrCreds = none) ∧
    (jsonHasKey (encodeDC r) "otherCreds" = false ↔
      (r.otherCreds = none ∨ r.otherCreds = some [])) ∧
    jsonHasKey (encodeTokens t) "token_expiry" = true ∧
    (t.tokenExpiry = none →
      jsonField (encodeTokens t) "token_expiry" = some .null) := by
  obtain ⟨g, o⟩ := r
  refine ⟨?_, ?_, ?_, ?_⟩
  · rcases g with _ | t0 <;> rcases o with _ | (_ | ⟨x, xs⟩) <;>
      simp [encodeDC, jsonHasKey, encodeOtherMap]
  · rcases g with _ | t0 <;> rcases o with _ | (_ | ⟨x, xs⟩) <;>
      simp [encodeDC, jsonHasKey, encodeOtherMap]
  · simp [encodeTokens, jsonHasKey]
  · intro he
    simp [encodeTokens, jsonField, he]

/-- C7 witness: the omission equivalences evaluated at a concrete record
with both fields absent and a token with a nil expiry. -/
theorem C7_witness :
    jsonHasKey (encodeDC ⟨none, none⟩) "gcrCreds" = false ∧
    jsonHasKey (encodeDC ⟨none, none⟩) "otherCreds" = false ∧
    ((⟨"at", "rt", none⟩ : Tokens).tokenExpiry = none) ∧
    jsonField (encodeTokens ⟨"at", "rt", none⟩) "token_expiry" =
      some .null :=
  ⟨(C7_field_omission ⟨none, none⟩ ⟨"at", "rt", none⟩).1.mpr rfl,
   (C7_field_omission ⟨none, none⟩ ⟨"at", "rt", none⟩).2.1.mpr (Or.inl rfl),
   rfl,
   (C7_field_omission ⟨none, none⟩ ⟨"at", "rt", none⟩).2.2.2 rfl⟩

/-- C8 counterexample: two public-operation errors without the
`docker-credential-gcr/store:` marker — the raw `os.Open` not-exist error
surfaced by `GetOtherCreds` on a missing file, and `GetGCRAuth`'s plain
`GCR Credentials not present in store` error. -/
theorem C8_counterexample :
    GetOtherCreds ⟨.absent, true, 0⟩ "u" =
      .error (.notExist credentialPath) ∧
    strHasTag (errMessage (.notExist credentialPath)) = false ∧
    GetGCRAuth ⟨.json (.obj []), true, 0⟩ =
      .error (.goError "GCR Credentials not present in store") ∧
    strHasTag (errMessage
      (.goError "GCR Credentials not present in store")) = false := by
  refine ⟨rfl, by decide, rfl, by decide⟩

/-- C8 amended: every error built through `authErr` carries the fixed
`docker-credential-gcr/store:` marker — so the absent-credential, corrupt
file and create-failure errors are all tagged — but the raw not-exist
error a missing file produces and `GetGCRAuth`'s credentials-not-present
error are returned untagged. -/
theorem C8_error_tagging (m : String) (c : Option GoError) (fs : FS)
    (u : String) (cred : Credentials) :
    strHasTag (errMessage (GoError.auth m c)) = true ∧
    (decodeFails fs.file = true →
      ∃ e, GetOtherCreds fs u = .error e ∧ strHasTag (errMessage e) = true) ∧
    (∀ j r, fs.file = .json j → decodeDC j = some r →
      optLookup r.otherCreds u = none →
      GetOtherCreds fs u =
        .error (authErr ("no credentials present for " ++ u) none) ∧
      strHasTag (errMessage
        (authErr ("no credentials present for " ++ u) none)) = true) ∧
    (fs.writeOk = false → ∃ e, (SetOtherCreds fs cred).1 = some e ∧
      strHasTag (errMessage e) = true) ∧
    (fs.file = .absent →
      GetOtherCreds fs u = .error (.notExist credentialPath) ∧
      strHasTag (errMessage (.notExist credentialPath)) = false) ∧
    (∀ j r, fs.file = .json j → decodeDC j = some r → r.gcrCreds = none →
      GetGCRAuth fs = .error (.goError "GCR Credentials not present in store") ∧
      strHasTag (errMessage
        (.goError "GCR Credentials not present in store")) = false) := by
  refine ⟨strHasTag_auth m c, ?_, ?_, ?_, ?_, ?_⟩
  · intro hfail
    obtain ⟨c0, hc0⟩ := load_decodeFails hfail
    refine ⟨authErr ("failed to decode credentials from " ++ credentialPath)
      (some c0), ?_, strHasTag_auth _ _⟩
    simp [GetOtherCreds, AllThirdPartyCreds, hc0]
  · intro j r hf hd hl
    refine ⟨?_, strHasTag_auth _ _⟩
    simp [GetOtherCreds, AllThirdPartyCreds, load_json hf hd, hl]
  · intro hw
    rw [SetOtherCreds_eq fs cred, setDockerCredentials_fail _ hw]
    exact ⟨_, rfl, strHasTag_auth _ _⟩
  · intro hf
    refine ⟨?_, by decide⟩
    simp [GetOtherCreds, AllThirdPartyCreds, loadDockerCredentials, hf]
  · intro j r hf hd hg
    refine ⟨?_, by decide⟩
    simp [GetGCRAuth, load_json hf hd, hg]

/-- C8 witness: the tagging facts evaluated on concrete failing stores. -/
theorem C8_witness :
    strHasTag (errMessage (GoError.auth "failed to create credential file"
      (some (.goError "create failed")))) = true ∧
    decodeFails (FileContents.malformed "oops") = true ∧
    (∃ e, GetOtherCreds ⟨.malformed "oops", true, 0⟩ "u" = .error e ∧
      strHasTag (errMessage e) = true) ∧
    (⟨.absent, true, 0⟩ : FS).file = .absent ∧
    GetOtherCreds ⟨.absent, true, 0⟩ "u" =
      .error (.notExist credentialPath) ∧
    strHasTag (errMessage (.notExist credentialPath)) = false := by
  have h := C8_error_tagging "failed to create credential file"
    (some (.goError "create failed")) ⟨.malformed "oops", true, 0⟩ "u"
    ⟨"x", "y", "z"⟩
  have h2 := C8_error_tagging "m" none ⟨.absent, true, 0⟩ "u" ⟨"x", "y", "z"⟩
  exact ⟨h.1, rfl, h.2.1 rfl, rfl, (h2.2.2.2.2.1 rfl).1, (h2.2.2.2.2.1 rfl).2⟩

/-- C9: `SetOtherCreds` mutates its argument — after every call, on every
prior state, the caller's credential object has its `serverURL` field
cleared to the empty string, even when the call itself fails on the
write. -/
theorem C9_argument_mutation (fs : FS) (c : Credentials) :
    (SetOtherCreds fs c).2.2 = { c with serverURL := "" } ∧
    (fs.writeOk = false → ∃ e, (SetOtherCreds fs c).1 = some e ∧
      (SetOtherCreds fs c).2.2 = { c with serverURL := "" }) := by
  refine ⟨rfl, fun hw => ?_⟩
  rw [SetOtherCreds_eq fs c, setDockerCredentials_fail _ hw]
  exact ⟨_, rfl, rfl⟩

/-- C9 witness: the argument is cleared at a concrete store whose write
fails. -/
theorem C9_witness :
    (⟨.absent, false, 0⟩ : FS).writeOk = false ∧
    (SetOtherCreds ⟨.absent, false, 0⟩ ⟨"https://x", "bob", "s"⟩).2.2 =
      ⟨"", "bob", "s"⟩ ∧
    ∃ e, (SetOtherCreds ⟨.absent, false, 0⟩ ⟨"https://x", "bob", "s"⟩).1 =
      some e := by
  have h := C9_argument_mutation ⟨.absent, false, 0⟩ ⟨"https://x", "bob", "s"⟩
  obtain ⟨e, he, _⟩ := h.2 rfl
  exact ⟨rfl, h.1, ⟨e, he⟩⟩

/-- C10: `AllThirdPartyCreds` surfaces the raw file-not-found error when
the file is absent (it does not treat a missing file as an empty store),
while a present well-formed file with no third-party entries yields an
entry-less mapping without error. -/
theorem C10_all_creds (fs : FS) :
    (fs.file = .absent →
      AllThirdPartyCreds fs = .error (.notExist credentialPath) ∧
      isNotExist (.notExist credentialPath) = true) ∧
    (∀ j r, fs.file = .json j → decodeDC j = some r →
      mapSize r.otherCreds = 0 →
      AllThirdPartyCreds fs = .ok r.otherCreds ∧
      ∀ u, optLookup r.otherCreds u = none) := by
  refine ⟨fun hf => ⟨by simp [AllThirdPartyCreds, loadDockerCredentials, hf],
    rfl⟩, ?_⟩
  intro j r hf hd hs
  refine ⟨by simp [AllThirdPartyCreds, load_json hf hd], ?_⟩
  intro u
  cases ho : r.otherCreds with
  | none => rfl
  | some m =>
    rw [ho] at hs
    simp only [mapSize] at hs
    cases m with
    | nil => rfl
    | cons x xs => simp at hs

/-- C10 witness: an absent file errors; an empty well-formed file yields
the empty (nil) mapping. -/
theorem C10_witness :
    ((⟨.absent, true, 0⟩ : FS).file = .absent ∧
      AllThirdPartyCreds ⟨.absent, true, 0⟩ =
        .error (.notExist credentialPath)) ∧
    (decodeDC (.obj []) = some ⟨none, none⟩ ∧
      mapSize (⟨none, none⟩ : DockerCredentials).otherCreds = 0 ∧
      AllThirdPartyCreds ⟨.json (.obj []), true, 0⟩ = .ok none) := by
  have h1 := (C10_all_creds ⟨.absent, true, 0⟩).1 rfl
  have h2 := (C10_all_creds ⟨.json (.obj []), true, 0⟩).2 (.obj [])
    ⟨none, none⟩ rfl rfl rfl
  exact ⟨⟨rfl, h1.1⟩, ⟨rfl, rfl, h2.1⟩⟩
